import Mathlib

/-!
Shallow embedding of `swift-ring-master`'s utility layer (`srm/utils.py`) and,
where the repository ships only tests for it, a spec-modelled fragment of the
ring-minion (`srm/ringminion.py`).

Files are modelled as byte lists (`List Nat`, each byte `< 256` where it
matters), the local filesystem as an association list of paths to contents
plus a set of existing directories, and wall-clock time as a second /
sub-second pair (Python's `time.time()` float, of which `'%d' %` keeps only
the integral seconds).
-/

namespace Srm

/-- RFC 1321 MD5, as called by the source through `hashlib.md5`.
The 64 per-round additive constants. -/
def md5K : List Nat :=
  [0xd76aa478, 0xe8c7b756, 0x242070db, 0xc1bdceee,
   0xf57c0faf, 0x4787c62a, 0xa8304613, 0xfd469501,
   0x698098d8, 0x8b44f7af, 0xffff5bb1, 0x895cd7be,
   0x6b901122, 0xfd987193, 0xa679438e, 0x49b40821,
   0xf61e2562, 0xc040b340, 0x265e5a51, 0xe9b6c7aa,
   0xd62f105d, 0x02441453, 0xd8a1e681, 0xe7d3fbc8,
   0x21e1cde6, 0xc33707d6, 0xf4d50d87, 0x455a14ed,
   0xa9e3e905, 0xfcefa3f8, 0x676f02d9, 0x8d2a4c8a,
   0xfffa3942, 0x8771f681, 0x6d9d6122, 0xfde5380c,
   0xa4beea44, 0x4bdecfa9, 0xf6bb4b60, 0xbebfbc70,
   0x289b7ec6, 0xeaa127fa, 0xd4ef3085, 0x04881d05,
   0xd9d4d039, 0xe6db99e5, 0x1fa27cf8, 0xc4ac5665,
   0xf4292244, 0x432aff97, 0xab9423a7, 0xfc93a039,
   0x655b59c3, 0x8f0ccc92, 0xffeff47d, 0x85845dd1,
   0x6fa87e4f, 0xfe2ce6e0, 0xa3014314, 0x4e0811a1,
   0xf7537e82, 0xbd3af235, 0x2ad7d2bb, 0xeb86d391]

/-- The 64 per-round left-rotation amounts. -/
def md5S : List Nat :=
  [7, 12, 17, 22, 7, 12, 17, 22, 7, 12, 17, 22, 7, 12, 17, 22,
   5, 9, 14, 20, 5, 9, 14, 20, 5, 9, 14, 20, 5, 9, 14, 20,
   4, 11, 16, 23, 4, 11, 16, 23, 4, 11, 16, 23, 4, 11, 16, 23,
   6, 10, 15, 21, 6, 10, 15, 21, 6, 10, 15, 21, 6, 10, 15, 21]

/-- 32-bit truncation. -/
def w32 (x : Nat) : Nat := x % 4294967296

/-- 32-bit left rotation. -/
def rotl32 (x s : Nat) : Nat :=
  w32 ((Nat.shiftLeft x s).lor (Nat.shiftRight x (32 - s)))

/-- 32-bit bitwise complement. -/
def not32 (x : Nat) : Nat := Nat.xor x 4294967295

/-- MD5 working state: the four 32-bit registers. -/
structure Md5State where
  a : Nat
  b : Nat
  c : Nat
  d : Nat
deriving DecidableEq

/-- MD5 initial register values. -/
def md5Init : Md5State := ⟨0x67452301, 0xefcdab89, 0x98badcfe, 0x10325476⟩

/-- One of the 64 MD5 operations, on message words `m` (16 words). -/
def md5Round (m : List Nat) (st : Md5State) (i : Nat) : Md5State :=
  let fg : Nat × Nat :=
    if i < 16 then ((st.b.land st.c).lor ((not32 st.b).land st.d), i)
    else if i < 32 then ((st.d.land st.b).lor ((not32 st.d).land st.c), (5 * i + 1) % 16)
    else if i < 48 then ((st.b.xor st.c).xor st.d, (3 * i + 5) % 16)
    else (st.c.xor (st.b.lor (not32 st.d)), (7 * i) % 16)
  let tmp := w32 (fg.1 + st.a + md5K.getD i 0 + m.getD fg.2 0)
  ⟨st.d, w32 (st.b + rotl32 tmp (md5S.getD i 0)), st.b, st.c⟩

/-- Split a little-endian byte quadruple list (one 64-byte block) into its
16 32-bit message words. -/
def md5Words (block : List Nat) : List Nat :=
  (List.range 16).map fun j =>
    block.getD (4 * j) 0 + 256 * block.getD (4 * j + 1) 0 +
      65536 * block.getD (4 * j + 2) 0 + 16777216 * block.getD (4 * j + 3) 0

/-- Compress one 64-byte block into the running state. -/
def md5Block (st : Md5State) (block : List Nat) : Md5State :=
  let m := md5Words block
  let r := (List.range 64).foldl (md5Round m) st
  ⟨w32 (st.a + r.a), w32 (st.b + r.b), w32 (st.c + r.c), w32 (st.d + r.d)⟩

/-- MD5 padding: `0x80`, zeros to 56 mod 64, then the 8-byte little-endian
bit length. -/
def md5Pad (msg : List Nat) : List Nat :=
  let len := msg.length
  let zeros := (119 - len % 64) % 64
  msg ++ [0x80] ++ List.replicate zeros 0 ++
    (List.range 8).map fun i => (len * 8) / 256 ^ i % 256

/-- Cut a list into chunks of `n` (fuel-driven; `fuel ≥ l.length` suffices). -/
def chunksAux (n : Nat) : Nat → List Nat → List (List Nat)
  | 0, _ => []
  | _ + 1, [] => []
  | fuel + 1, x :: xs => (x :: xs).take n :: chunksAux n fuel ((x :: xs).drop n)

/-- Cut a list into chunks of `n` bytes. -/
def chunks (n : Nat) (l : List Nat) : List (List Nat) := chunksAux n l.length l

/-- Lowercase hex rendering of one byte. -/
def byteHex (b : Nat) : List Char := [Nat.digitChar (b / 16), Nat.digitChar (b % 16)]

/-- Little-endian byte decomposition of a 32-bit word. -/
def wordBytes (w : Nat) : List Nat :=
  [w % 256, w / 256 % 256, w / 65536 % 256, w / 16777216 % 256]

/-- The md5 hex digest of a byte sequence, as `hashlib.md5(bytes).hexdigest()`
computes it. -/
def md5hex (msg : List Nat) : String :=
  let st := (chunks 64 (md5Pad msg)).foldl md5Block md5Init
  String.mk (((wordBytes st.a ++ wordBytes st.b ++ wordBytes st.c ++ wordBytes st.d).map byteHex).flatten)

/-- The byte-feeding loop of `get_md5sum` (utils.py 80-85): read a block of
`chunk` bytes, and while the block is non-empty feed it to the md5 object and
read the next block.  The md5 object is modelled by the byte list fed so far
(`hashlib`'s incremental update over chunks observably digests their
concatenation); `remaining` is the unread tail of the file.  The unbounded
`while` is driven by fuel; `remaining.length + 1` always suffices. -/
def md5LoopAux (chunk : Nat) : Nat → List Nat → List Nat → List Nat
  | 0, _, acc => acc
  | fuel + 1, remaining, acc =>
    let block := remaining.take chunk
    if block.isEmpty then acc
    else md5LoopAux chunk fuel (remaining.drop chunk) (acc ++ block)

/-- `get_md5sum(filename, chunk_size=4096)` (utils.py 73-86): stream the named
file's contents in `chunk_size`-byte blocks through an md5 object and return
the hex digest.  `contents` stands for the opened file's byte contents. -/
def get_md5sum (contents : List Nat) (chunk_size : Nat := 4096) : String :=
  md5hex (md5LoopAux chunk_size (contents.length + 1) contents [])

/-- `md5matches(target_file, expected_md5)` (utils.py 89-99): `True` iff the
file's streamed digest equals `expected_md5`. -/
def md5matches (target_contents : List Nat) (expected_md5 : String) : Bool :=
  if get_md5sum target_contents = expected_md5 then true else false

/-! ### Paths, time, and the local filesystem -/

/-- Python `os.path.basename`: the part after the last slash. -/
def basename (p : String) : String :=
  match (p.data.splitOn '/').getLast? with
  | some last => String.mk last
  | none => p

/-- Python `os.path.join` for the shapes the source produces: a second
component starting with a slash is absolute and wins; otherwise it is glued
with exactly one separating slash. -/
def pathjoin (a b : String) : String :=
  if b.data.head? = some '/' then b
  else if a.data.getLast? = some '/' then a ++ b
  else a ++ "/" ++ b

/-- Little-endian base-10 digit characters of `n` (fuel-driven; `fuel ≥ n`
suffices). -/
def toDecimalAux : Nat → Nat → List Char
  | 0, _ => []
  | fuel + 1, n =>
    if n = 0 then [] else Nat.digitChar (n % 10) :: toDecimalAux fuel (n / 10)

/-- Decimal rendering of a natural number, embedding Python's `'%d' %`
formatting of the (nonnegative) truncated timestamp. -/
def natRepr (n : Nat) : String :=
  if n = 0 then "0" else String.mk ((toDecimalAux n n).reverse)

/-- A `time.time()` instant: integral seconds plus sub-second part
(nanoseconds); `'%d' %` keeps only `sec`. -/
structure PTime where
  sec : Nat
  nsec : Nat
deriving DecidableEq

/-- `errno.EEXIST`. -/
def EEXIST : Nat := 17

/-- `errno.ENOENT`. -/
def ENOENT : Nat := 2

/-- The local filesystem: files as an association list from path to byte
contents, the set of directories that exist, and an environment map giving,
for each path, an `OSError` errno that `mkdir` on it would raise for a reason
other than prior existence (`none` when creation would succeed). -/
structure FS where
  files : List (String × List Nat)
  dirs : List String
  mkdirFail : String → Option Nat

/-- Contents of the file at `p`, if it exists. -/
def FS.readFile (fs : FS) (p : String) : Option (List Nat) :=
  match fs.files.find? (fun e => e.1 == p) with
  | some e => some e.2
  | none => none

/-- Write (create or overwrite) the file at `p`. -/
def FS.writeFile (fs : FS) (p : String) (c : List Nat) : FS :=
  { fs with files := (p, c) :: fs.files.filter (fun e => !(e.1 == p)) }

/-- `os.mkdir`: raises `OSError` with `EEXIST` when the directory already
exists, raises the environment's errno when some other failure applies, and
otherwise creates the directory. -/
def FS.mkdir (fs : FS) (d : String) : Except Nat FS :=
  if fs.dirs.contains d then .error EEXIST
  else match fs.mkdirFail d with
    | some e => .error e
    | none => .ok { fs with dirs := d :: fs.dirs }

/-- `make_backup(filename, backup_dir)` (utils.py 102-115): `mkdir` the backup
directory, swallowing only `EEXIST`; name the backup `'%d.' % time()` plus the
original basename; `shutil.copy` the file there (raising `ENOENT`-style
`IOError` when the source is missing); return the backup path with the backup
file's own streamed md5 digest.  `now` is the `time()` reading. -/
def make_backup (fs : FS) (filename backup_dir : String) (now : PTime) :
    Except Nat (FS × String × String) :=
  let step1 : Except Nat FS :=
    match fs.mkdir backup_dir with
    | .ok fs1 => .ok fs1
    | .error e => if e ≠ EEXIST then .error e else .ok fs
  match step1 with
  | .error e => .error e
  | .ok fs1 =>
    let backup := pathjoin backup_dir (natRepr now.sec ++ "." ++ basename filename)
    match fs1.readFile filename with
    | none => .error ENOENT
    | some c =>
      let fs2 := fs1.writeFile backup c
      match fs2.readFile backup with
      | none => .error ENOENT
      | some cb => .ok (fs2, backup, get_md5sum cb)

/-! ### Ring structural validation -/

/-- The external swift ring library's capability (spec §6): decoding a file
either throws or yields a handle exposing the device list and a
partition-to-nodes lookup that may itself throw (`none`). -/
inductive RingDecode where
  | failed
  | ok (devs : List Nat) (part_nodes : Nat → Option (List Nat))

/-- `is_valid_ring(ring_file)` (utils.py 118-132): decode the ring inside a
`try`; `False` when decoding throws, when `len(ring.devs) < 1`, or when
`ring.get_part_nodes(1)` throws or is falsy (empty); `True` otherwise.
`decode` is the `Ring(..)` constructor's behaviour on each path. -/
def is_valid_ring (decode : String → RingDecode) (ring_file : String) : Bool :=
  match decode ring_file with
  | .failed => false
  | .ok devs part_nodes =>
    if devs.length < 1 then false
    else match part_nodes 1 with
      | none => false
      | some nodes => if nodes.isEmpty then false else true

/-! ### EmailNotify -/

/-- Python `str.split(sep)` for a one-character separator: splits at every
occurrence; the empty string splits to `[[]]`. -/
def pySplitChar (c : Char) : List Char → List (List Char)
  | [] => [[]]
  | x :: xs =>
    if x = c then [] :: pySplitChar c xs
    else match pySplitChar c xs with
      | [] => [[x]]
      | y :: ys => (x :: y) :: ys

/-- Python `str.strip()`: drop leading and trailing whitespace. -/
def pyStrip (l : List Char) : List Char :=
  ((l.dropWhile Char.isWhitespace).reverse.dropWhile Char.isWhitespace).reverse

/-- How `EmailNotify.__init__` can abort: `AttributeError` from calling
`.split` on the `None` a missing key returns, `ValueError` from `int()` on a
malformed port, or the explicit `'No smtplib recipients in conf.'` raise. -/
inductive InitError where
  | attributeError
  | valueError
  | noRecipients
deriving DecidableEq

/-- The state `EmailNotify.__init__` establishes. -/
structure EmailNotify where
  smtp_host : String
  smtp_port : Int
  from_addr : String
  recipients : List String
deriving DecidableEq

/-- `conf.get(key)` over the configuration association list. -/
def confGet (conf : List (String × String)) (key : String) : Option String :=
  match conf.find? (fun e => e.1 == key) with
  | some e => some e.2
  | none => none

/-- Decimal digit-run value accumulator for `pyInt`. -/
def digitsValAux : List Char → Nat → Option Nat
  | [], acc => some acc
  | c :: cs, acc =>
    if c.isDigit then digitsValAux cs (acc * 10 + (c.toNat - 48)) else none

/-- Python `int(str)` on the strings the source feeds it: an optional sign
followed by at least one decimal digit; anything else raises `ValueError`
(`none`). -/
def pyInt (s : String) : Option Int :=
  match s.data with
  | [] => none
  | '-' :: cs => if cs.isEmpty then none else (digitsValAux cs 0).map (fun n => -(n : Int))
  | cs => (digitsValAux cs 0).map (fun n => (n : Int))

/-- `EmailNotify.__init__(conf, logger)` (utils.py 32-41): read host, port and
from-address with defaults, split `conf['smtplib_recipients']` on `','`
stripping each part (raising `AttributeError` when the key is absent, since
`None.split` fails), then raise `'No smtplib recipients in conf.'` if the
resulting list is empty. -/
def emailNotifyInit (conf : List (String × String)) : Except InitError EmailNotify :=
  let host := (confGet conf "smtplib_host").getD "localhost"
  let portStr := (confGet conf "smtplib_port").getD "25"
  match pyInt portStr with
  | none => .error InitError.valueError
  | some port =>
    let from_addr := (confGet conf "smtplib_from_addr").getD "ringmaster@localhost"
    match confGet conf "smtplib_recipients" with
    | none => .error InitError.attributeError
    | some s =>
      let recipients := (pySplitChar ',' s.data).map (fun l => String.mk (pyStrip l))
      if recipients.isEmpty then .error InitError.noRecipients
      else .ok ⟨host, port, from_addr, recipients⟩

/-! ### Ring minion (spec-modelled): fetch classification and validation -/

/-- Severity of a log call. -/
inductive LogLevel where
  | debug
  | warning
  | error
deriving DecidableEq

/-- One log call: severity and message. -/
structure LogEntry where
  level : LogLevel
  msg : String
deriving DecidableEq

/-- What the conditional HTTP fetch ran into, as classified by the minion's
`try`/`except` chain: a response object bearing a status code, an
`urllib` `HTTPError` bearing a code, a transport-level `URLError`, or any
other unexpected exception anywhere in the fetch/response-handling path. -/
inductive FetchEvent where
  | status (code : Nat)
  | httpError (code : Nat)
  | urlError
  | otherError
deriving DecidableEq

/-- Modelled from the spec: `RingMinion.fetch_ring` lives in
`srm/ringminion.py`, which is not part of the sources here (only its test,
`src/test/test_ringminion.py`, is).  Following spec §4.1/§6 and the test:
status 304 or `HTTPError` code 304 → `None` ("unchanged") with a debug log;
any response status outside {200, 304} → `False` with one warning; an
`HTTPError` with code ≠ 304 or a transport `URLError` → `False` with an
error log `'Error communicating with ring-master'`; any other exception is
caught → `False` with `'Error retrieving or checking on ring'`; a 200
response proceeds to write/validate/swap and reports success.  The call
always returns a value — no event propagates an exception. -/
def fetch_ring (ev : FetchEvent) : Option Bool × List LogEntry :=
  match ev with
  | .status code =>
    if code = 304 then (none, [⟨.debug, "Ring-master reports ring unchanged."⟩])
    else if code ≠ 200 then (some false, [⟨.warning, "Received non 200 status code"⟩])
    else (some true, [])
  | .httpError code =>
    if code = 304 then (none, [⟨.debug, "Ring-master reports ring unchanged."⟩])
    else (some false, [⟨.error, "Error communicating with ring-master"⟩])
  | .urlError => (some false, [⟨.error, "Error communicating with ring-master"⟩])
  | .otherError => (some false, [⟨.error, "Error retrieving or checking on ring"⟩])

/-- Modelled from the spec: `RingMinion._validate_ring` lives in
`srm/ringminion.py`, absent here (its test is `test_validate_ring`).
Spec §4.5 orders the checks "digest check against serverDigest, then
structural check"; the digest check is `md5matches` and the structural check
`is_valid_ring` from `srm/utils.py`; the raised messages are the test's
`'md5 missmatch'` and `'Invalid ring'`.  `contents` are the bytes of the file
being validated and `decode` the ring library's behaviour on it. -/
def validate_ring (decode : String → RingDecode) (ring_file : String)
    (contents : List Nat) (expected_md5 : String) : Except String Unit :=
  if ¬ md5matches contents expected_md5 then .error "md5 missmatch"
  else if ¬ is_valid_ring decode ring_file then .error "Invalid ring"
  else .ok ()

/-! ### A concrete rapid-double-backup scenario

Two `make_backup` calls for the same file at distinct instants inside the
same wall-clock second: the ring file holds `[1]` at the first call and `[2]`
at the second. -/

/-- Initial filesystem: ring file `f` with contents `[1]`, no backup dir. -/
def cexFS0 : FS := ⟨[("f", [1])], [], fun _ => none⟩

/-- First backup call, at 100 s + 1 ns. -/
def cexRun1 : Except Nat (FS × String × String) := make_backup cexFS0 "f" "b" ⟨100, 1⟩

/-- Filesystem after the first backup. -/
def cexFS1 : FS :=
  match cexRun1 with
  | .ok r => r.1
  | .error _ => cexFS0

/-- Path of the first backup. -/
def cexPath1 : String :=
  match cexRun1 with
  | .ok r => r.2.1
  | .error _ => ""

/-- Second backup call, at 100 s + 0.5 s, after the ring file changed to `[2]`. -/
def cexRun2 : Except Nat (FS × String × String) :=
  make_backup (cexFS1.writeFile "f" [2]) "f" "b" ⟨100, 500000000⟩

/-- Filesystem after the second backup. -/
def cexFS2 : FS :=
  match cexRun2 with
  | .ok r => r.1
  | .error _ => cexFS0

/-- Path of the second backup. -/
def cexPath2 : String :=
  match cexRun2 with
  | .ok r => r.2.1
  | .error _ => ""

/-! ### Helper lemmas -/

theorem md5LoopAux_spec (c : Nat) :
    ∀ fuel remaining acc, remaining.length < fuel →
      md5LoopAux (c + 1) fuel remaining acc = acc ++ remaining := by
  intro fuel
  induction fuel with
  | zero => intro remaining acc h; exact absurd h (Nat.not_lt_zero _)
  | succ f ih =>
    intro remaining acc h
    cases remaining with
    | nil => simp [md5LoopAux]
    | cons x xs =>
      rw [md5LoopAux]
      simp only [List.take_succ_cons, List.isEmpty_cons, if_false, Bool.false_eq_true,
        if_neg (by simp : ¬((x :: (xs.take c)).isEmpty = true))]
      rw [ih]
      · rw [List.append_assoc, List.drop_succ_cons, List.cons_append,
          List.take_append_drop]
      · have := List.length_drop (c + 1) (x :: xs)
        simp at h ⊢
        omega

/-- With a positive chunk size the loop feeds the whole file. -/
theorem get_md5sum_pos (contents : List Nat) (chunk : Nat) (hc : 0 < chunk) :
    get_md5sum contents chunk = md5hex contents := by
  have hchunk : chunk = (chunk - 1) + 1 := by omega
  rw [get_md5sum, hchunk, md5LoopAux_spec _ _ _ _ (by omega), List.nil_append]

theorem pySplitChar_ne_nil (c : Char) (l : List Char) : pySplitChar c l ≠ [] := by
  cases l with
  | nil => simp [pySplitChar]
  | cons x xs =>
    rw [pySplitChar]
    by_cases hx : x = c
    · simp [hx]
    · simp only [if_neg hx]
      cases pySplitChar c xs <;> simp

theorem toDecimalAux_eq_digits : ∀ fuel n, n ≤ fuel →
    toDecimalAux fuel n = (Nat.digits 10 n).map Nat.digitChar := by
  intro fuel
  induction fuel with
  | zero =>
    intro n h
    have hn : n = 0 := by omega
    simp [toDecimalAux, hn]
  | succ f ih =>
    intro n h
    rw [toDecimalAux]
    by_cases hn : n = 0
    · simp [hn]
    · rw [if_neg hn, Nat.digits_def' (by norm_num : (1 : ℕ) < 10)
        (Nat.pos_of_ne_zero hn), List.map_cons]
      congr 1
      have hdiv := Nat.div_lt_self (Nat.pos_of_ne_zero hn) (by norm_num : (1 : ℕ) < 10)
      exact ih (n / 10) (by omega)

/-- `natRepr` in terms of `Nat.digits`, for reasoning. -/
theorem natRepr_eq (n : Nat) :
    natRepr n =
      if n = 0 then "0"
      else String.mk (((Nat.digits 10 n).map Nat.digitChar).reverse) := by
  rw [natRepr, toDecimalAux_eq_digits n n (Nat.le_refl n)]

theorem digitChar_inj_lt10 :
    ∀ a, a < 10 → ∀ b, b < 10 → Nat.digitChar a = Nat.digitChar b → a = b := by decide

theorem digitChar_ne_dot : ∀ a, a < 10 → Nat.digitChar a ≠ '.' := by decide

theorem map_digitChar_inj :
    ∀ (l₁ l₂ : List Nat), (∀ x ∈ l₁, x < 10) → (∀ x ∈ l₂, x < 10) →
      l₁.map Nat.digitChar = l₂.map Nat.digitChar → l₁ = l₂ := by
  intro l₁
  induction l₁ with
  | nil => intro l₂ _ _ h; cases l₂ <;> simp_all
  | cons x xs ih =>
    intro l₂ h₁ h₂ h
    cases l₂ with
    | nil => simp_all
    | cons y ys =>
      simp only [List.map_cons, List.cons.injEq] at h
      have hx : x = y :=
        digitChar_inj_lt10 x (h₁ x (by simp)) y (h₂ y (by simp)) h.1
      have hxs : xs = ys :=
        ih ys (fun z hz => h₁ z (by simp [hz])) (fun z hz => h₂ z (by simp [hz])) h.2
      rw [hx, hxs]

theorem natRepr_inj : ∀ m n : Nat, natRepr m = natRepr n → m = n := by
  have key : ∀ m n : Nat, m ≠ 0 → n ≠ 0 → natRepr m = natRepr n → m = n := by
    intro m n hm hn h
    rw [natRepr_eq, natRepr_eq, if_neg hm, if_neg hn] at h
    have hdata : (((Nat.digits 10 m).map Nat.digitChar).reverse : List Char) =
        ((Nat.digits 10 n).map Nat.digitChar).reverse := congrArg String.data h
    have hmap := List.reverse_injective hdata
    have hdig : Nat.digits 10 m = Nat.digits 10 n :=
      map_digitChar_inj _ _ (fun x hx => Nat.digits_lt_base (by norm_num) hx)
        (fun x hx => Nat.digits_lt_base (by norm_num) hx) hmap
    calc m = Nat.ofDigits 10 (Nat.digits 10 m) := (Nat.ofDigits_digits 10 m).symm
      _ = Nat.ofDigits 10 (Nat.digits 10 n) := by rw [hdig]
      _ = n := Nat.ofDigits_digits 10 n
  have zero_ne : ∀ n : Nat, n ≠ 0 → natRepr 0 ≠ natRepr n := by
    intro n hn h
    rw [natRepr_eq, natRepr_eq, if_pos rfl, if_neg hn] at h
    have hdata : ("0".data : List Char) =
        ((Nat.digits 10 n).map Nat.digitChar).reverse := congrArg String.data h
    have hmap : ([(0 : Nat)].map Nat.digitChar : List Char) =
        ((Nat.digits 10 n).reverse.map Nat.digitChar : List Char) := by
      rw [List.map_reverse]; exact hdata
    have hdig : ([(0 : Nat)] : List Nat) = (Nat.digits 10 n).reverse :=
      map_digitChar_inj _ _ (by intro x hx; simp at hx; omega)
        (fun x hx => Nat.digits_lt_base (by norm_num) (by simpa using hx)) hmap
    have hdig' : Nat.digits 10 n = [0] := by
      have := congrArg List.reverse hdig
      simpa using this.symm
    have : n = 0 := by
      calc n = Nat.ofDigits 10 (Nat.digits 10 n) := (Nat.ofDigits_digits 10 n).symm
        _ = Nat.ofDigits 10 [0] := by rw [hdig']
        _ = 0 := by simp [Nat.ofDigits]
    exact hn this
  intro m n h
  rcases Nat.eq_zero_or_pos m with hm | hm
  · rcases Nat.eq_zero_or_pos n with hn | hn
    · rw [hm, hn]
    · exact absurd (hm ▸ h) (zero_ne n (by omega))
  · rcases Nat.eq_zero_or_pos n with hn | hn
    · exact absurd (hn ▸ h.symm) (zero_ne m (by omega))
    · exact key m n (by omega) (by omega) h

theorem dot_not_mem_natRepr (n : Nat) : '.' ∉ (natRepr n).data := by
  rw [natRepr_eq]
  by_cases hn : n = 0
  · rw [if_pos hn]; decide
  · rw [if_neg hn]
    intro hmem
    simp only [List.mem_reverse, List.mem_map] at hmem
    obtain ⟨d, hd, hchar⟩ := hmem
    exact digitChar_ne_dot d (Nat.digits_lt_base (by norm_num) hd) hchar

theorem dotfree_append_cancel :
    ∀ (r₁ r₂ s : List Char), '.' ∉ r₁ → '.' ∉ r₂ →
      r₁ ++ '.' :: s = r₂ ++ '.' :: s → r₁ = r₂ := by
  intro r₁
  induction r₁ with
  | nil =>
    intro r₂ s _ h₂ h
    cases r₂ with
    | nil => rfl
    | cons y ys =>
      simp only [List.nil_append, List.cons_append, List.cons.injEq] at h
      exact absurd (h.1 ▸ List.mem_cons_self y ys) (h.1 ▸ h₂)
  | cons x xs ih =>
    intro r₂ s h₁ h₂ h
    cases r₂ with
    | nil =>
      simp only [List.cons_append, List.nil_append, List.cons.injEq] at h
      exact absurd (h.1 ▸ List.mem_cons_self x xs) (by rw [h.1] at h₁; exact h₁)
    | cons y ys =>
      simp only [List.cons_append, List.cons.injEq] at h
      have := ih ys s (fun hm => h₁ (List.mem_cons_of_mem x hm))
        (fun hm => h₂ (List.mem_cons_of_mem y hm)) h.2
      rw [h.1, this]

theorem natRepr_chars (n : Nat) :
    ∀ ch ∈ (natRepr n).data, ∃ d, d < 10 ∧ ch = Nat.digitChar d := by
  intro ch hch
  rw [natRepr_eq] at hch
  by_cases hn : n = 0
  · rw [if_pos hn] at hch
    have h0 : ("0".data : List Char) = ['0'] := rfl
    rw [h0] at hch
    simp at hch
    exact ⟨0, by norm_num, by rw [hch]; rfl⟩
  · rw [if_neg hn] at hch
    have hch' : ch ∈ ((Nat.digits 10 n).map Nat.digitChar).reverse := hch
    simp only [List.mem_reverse, List.mem_map] at hch'
    obtain ⟨d, hd, hchar⟩ := hch'
    exact ⟨d, Nat.digits_lt_base (by norm_num) hd, hchar.symm⟩

theorem natRepr_ne_nil (n : Nat) : (natRepr n).data ≠ [] := by
  rw [natRepr_eq]
  by_cases hn : n = 0
  · rw [if_pos hn]; decide
  · rw [if_neg hn]
    have : ((Nat.digits 10 n).map Nat.digitChar).reverse ≠ [] := by
      simp [Nat.digits_ne_nil_iff_ne_zero, hn]
    exact this

theorem digitChar_ne_slash : ∀ a, a < 10 → Nat.digitChar a ≠ '/' := by decide

theorem backupName_data (s : Nat) (base : String) :
    (natRepr s ++ "." ++ base).data = (natRepr s).data ++ '.' :: base.data := by
  rw [String.data_append, String.data_append, List.append_assoc]
  rfl

theorem backup_path_inj (d base : String) (s₁ s₂ : Nat)
    (h : pathjoin d (natRepr s₁ ++ "." ++ base) = pathjoin d (natRepr s₂ ++ "." ++ base)) :
    s₁ = s₂ := by
  have hhead : ∀ s : Nat, ¬ ((natRepr s ++ "." ++ base).data.head? = some '/') := by
    intro s hs
    rw [backupName_data] at hs
    cases hnr : (natRepr s).data with
    | nil => exact natRepr_ne_nil s hnr
    | cons c0 rest =>
      rw [hnr] at hs
      simp only [List.cons_append, List.head?_cons, Option.some.injEq] at hs
      obtain ⟨dd, hdd, hc⟩ := natRepr_chars s c0 (by rw [hnr]; exact List.mem_cons_self c0 rest)
      rw [hs] at hc
      exact digitChar_ne_slash dd hdd hc.symm
  rw [pathjoin, pathjoin, if_neg (hhead s₁), if_neg (hhead s₂)] at h
  have hcan : (natRepr s₁).data ++ (['.'] ++ base.data) =
      (natRepr s₂).data ++ (['.'] ++ base.data) := by
    by_cases hd : d.data.getLast? = some '/'
    · rw [if_pos hd, if_pos hd] at h
      have hdat := congrArg String.data h
      simp only [String.data_append, List.append_assoc] at hdat
      exact List.append_cancel_left hdat
    · rw [if_neg hd, if_neg hd] at h
      have hdat := congrArg String.data h
      simp only [String.data_append, List.append_assoc] at hdat
      exact List.append_cancel_left (List.append_cancel_left hdat)
  have hdat : (natRepr s₁).data ++ '.' :: base.data =
      (natRepr s₂).data ++ '.' :: base.data := by simpa using hcan
  have := dotfree_append_cancel (natRepr s₁).data (natRepr s₂).data base.data
    (dot_not_mem_natRepr s₁) (dot_not_mem_natRepr s₂) hdat
  exact natRepr_inj s₁ s₂ (String.ext this)

theorem FS.readFile_writeFile (fs : FS) (p : String) (c : List Nat) :
    (fs.writeFile p c).readFile p = some c := by
  rw [FS.readFile, FS.writeFile]
  simp [List.find?]

theorem make_backup_ok (fs : FS) (f d : String) (t : PTime) (fs' : FS) (p dg : String)
    (h : make_backup fs f d t = .ok (fs', p, dg)) :
    p = pathjoin d (natRepr t.sec ++ "." ++ basename f) ∧
    ∃ cb, fs'.readFile p = some cb ∧ dg = get_md5sum cb := by
  rw [make_backup] at h
  split at h
  · simp at h
  · split at h
    · simp at h
    · rename_i fs1 heq1 c heq2
      simp only [] at h
      split at h
      · simp at h
      · rename_i cb heq3
        simp only [Except.ok.injEq, Prod.mk.injEq] at h
        obtain ⟨h1, h2, h3⟩ := h
        subst h1
        subst h3
        refine ⟨h2.symm, cb, ?_, rfl⟩
        rw [← h2]
        exact heq3

theorem FS.readFile_mk_dirs (fs : FS) (l : List String) (p : String) :
    FS.readFile ⟨fs.files, l, fs.mkdirFail⟩ p = fs.readFile p := rfl

/-! ### Claims -/

/-- Claim C1: for a file whose contents are `B` with md5 hex digest `D`,
`md5matches` returns `True` on `D` and `False` on every other digest
string. -/
theorem claim_C1 (B : List Nat) (D' : String) :
    md5matches B (md5hex B) = true ∧ (D' ≠ md5hex B → md5matches B D' = false) := by
  have h4096 : get_md5sum B 4096 = md5hex B := get_md5sum_pos B 4096 (by norm_num)
  constructor
  · rw [md5matches, h4096, if_pos rfl]
  · intro hne
    rw [md5matches, h4096, if_neg (fun hh => hne hh.symm)]

set_option maxRecDepth 10000 in
theorem claim_C1_witness :
    md5matches [] (md5hex []) = true ∧
    ("" ≠ md5hex [] ∧ md5matches [] "" = false) :=
  ⟨(claim_C1 [] "").1, by decide, (claim_C1 [] "").2 (by decide)⟩

/-- Claim C8: the chunked streaming digest equals the one-shot digest of the
whole contents, for every positive chunk size. -/
theorem claim_C8 (contents : List Nat) (chunk_size : Nat) (h : 0 < chunk_size) :
    get_md5sum contents chunk_size = md5hex contents :=
  get_md5sum_pos contents chunk_size h

theorem claim_C8_witness :
    0 < 3 ∧ get_md5sum [10, 20, 30, 40] 3 = md5hex [10, 20, 30, 40] :=
  ⟨by decide, claim_C8 [10, 20, 30, 40] 3 (by decide)⟩

/-- Claim C10: with `chunk_size = 0` the first read already returns an empty
block, so `get_md5sum` returns the digest of the empty byte string whatever
the file holds. -/
theorem claim_C10 (contents : List Nat) :
    get_md5sum contents 0 = md5hex [] := by
  rw [get_md5sum]
  congr 1

/-- Claim C3: `is_valid_ring` is `True` exactly when decoding succeeds, the
device count is at least one, and the sample partition lookup succeeds with a
non-empty node list. -/
theorem claim_C3 (decode : String → RingDecode) (ring_file : String) :
    is_valid_ring decode ring_file = true ↔
      ∃ devs part_nodes, decode ring_file = RingDecode.ok devs part_nodes ∧
        1 ≤ devs.length ∧ ∃ nodes, part_nodes 1 = some nodes ∧ nodes ≠ [] := by
  rw [is_valid_ring]
  cases hdec : decode ring_file with
  | failed => simp
  | ok devs pn =>
    simp only [RingDecode.ok.injEq]
    constructor
    · intro hv
      by_cases hlen : devs.length < 1
      · rw [if_pos hlen] at hv
        exact absurd hv (by simp)
      · rw [if_neg hlen] at hv
        cases hpn : pn 1 with
        | none => rw [hpn] at hv; exact absurd hv (by simp)
        | some nodes =>
          rw [hpn] at hv
          cases nodes with
          | nil => simp at hv
          | cons a l =>
            exact ⟨devs, pn, ⟨rfl, rfl⟩, by omega, a :: l, hpn, by simp⟩
    · rintro ⟨devs', pn', ⟨hd, hp⟩, hge, nodes, hpn, hne⟩
      subst hd
      subst hp
      rw [if_neg (by omega), hpn]
      cases nodes with
      | nil => exact absurd rfl hne
      | cons a l => simp

/-- Claim C9: whenever `smtplib_recipients` maps to a string, splitting on
`','` yields at least one element, so the `'No smtplib recipients in conf.'`
guard never fires; with the key absent (and a parsable port, which the source
reads first) the constructor instead fails on `None.split` with an
`AttributeError`. -/
theorem claim_C9 (conf : List (String × String)) :
    (∀ s, confGet conf "smtplib_recipients" = some s →
      emailNotifyInit conf ≠ .error InitError.noRecipients) ∧
    (confGet conf "smtplib_recipients" = none →
      (pyInt ((confGet conf "smtplib_port").getD "25")).isSome = true →
      emailNotifyInit conf = .error InitError.attributeError) := by
  constructor
  · intro s hs
    cases hport : pyInt ((confGet conf "smtplib_port").getD "25") with
    | none => simp [emailNotifyInit, hport]
    | some port =>
      cases hsp : pySplitChar ',' s.data with
      | nil => exact absurd hsp (pySplitChar_ne_nil ',' s.data)
      | cons a l => simp [emailNotifyInit, hport, hs, hsp]
  · intro hnone hsome
    cases hport : pyInt ((confGet conf "smtplib_port").getD "25") with
    | none => rw [hport] at hsome; exact absurd hsome (by simp)
    | some port => simp [emailNotifyInit, hport, hnone]

theorem claim_C9_witness :
    (confGet [("smtplib_recipients", "")] "smtplib_recipients" = some "" ∧
      emailNotifyInit [("smtplib_recipients", "")] ≠ .error InitError.noRecipients) ∧
    (confGet [] "smtplib_recipients" = none ∧
      emailNotifyInit [] = .error InitError.attributeError) :=
  ⟨⟨by decide, (claim_C9 [("smtplib_recipients", "")]).1 "" (by decide)⟩,
   ⟨by decide, (claim_C9 []).2 (by decide) (by decide)⟩⟩

/-- Claim C5: validation raises the digest-mismatch error (message
`'md5 missmatch'`) when the expected digest differs from the file's md5,
raises the distinct structural error (message `'Invalid ring'`) when the
digest matches but the ring is invalid, and raises neither when both checks
pass. -/
theorem claim_C5 (decode : String → RingDecode) (ring_file : String)
    (contents : List Nat) (expected : String) :
    (expected ≠ md5hex contents →
      validate_ring decode ring_file contents expected = .error "md5 missmatch") ∧
    (expected = md5hex contents → is_valid_ring decode ring_file = false →
      validate_ring decode ring_file contents expected = .error "Invalid ring") ∧
    (expected = md5hex contents → is_valid_ring decode ring_file = true →
      validate_ring decode ring_file contents expected = .ok ()) ∧
    ("md5 missmatch" : String) ≠ "Invalid ring" := by
  have hmm : md5matches contents expected = true ↔ expected = md5hex contents := by
    rw [md5matches, get_md5sum_pos contents 4096 (by norm_num)]
    constructor
    · intro h
      by_cases he : md5hex contents = expected
      · exact he.symm
      · rw [if_neg he] at h
        exact absurd h (by simp)
    · intro h
      rw [if_pos h.symm]
  refine ⟨?_, ?_, ?_, by decide⟩
  · intro hne
    have hm : md5matches contents expected = false := by
      cases hmb : md5matches contents expected with
      | false => rfl
      | true => exact absurd (hmm.mp hmb) hne
    simp [validate_ring, hm]
  · intro heq hiv
    simp [validate_ring, hmm.mpr heq, hiv]
  · intro heq hiv
    simp [validate_ring, hmm.mpr heq, hiv]

set_option maxRecDepth 10000 in
theorem claim_C5_witness :
    validate_ring (fun _ => RingDecode.failed) "r" [] "" = .error "md5 missmatch" ∧
    validate_ring (fun _ => RingDecode.failed) "r" [] (md5hex []) = .error "Invalid ring" ∧
    validate_ring (fun _ => RingDecode.ok [0] fun _ => some [5]) "r" [] (md5hex []) = .ok () :=
  ⟨(claim_C5 (fun _ => RingDecode.failed) "r" [] "").1 (by decide),
   (claim_C5 (fun _ => RingDecode.failed) "r" [] (md5hex [])).2.1 rfl (by decide),
   (claim_C5 (fun _ => RingDecode.ok [0] fun _ => some [5]) "r" [] (md5hex [])).2.2.1 rfl
     (by decide)⟩

/-- Claim C4: response classification of the ring fetch — 304 (as a status or
as an `HTTPError` code) yields `None` with the unchanged debug log; any status
outside {200, 304} yields `False` with exactly the one warning
`'Received non 200 status code'`; a non-304 `HTTPError` or a transport
`URLError` yields `False` with the `'Error communicating with ring-master'`
error log; any other exception is caught and yields `False` with
`'Error retrieving or checking on ring'`.  `fetch_ring` is a total function
of the event, so every case returns rather than propagating. -/
theorem claim_C4 (code : Nat) :
    fetch_ring (.status 304) = (none, [⟨.debug, "Ring-master reports ring unchanged."⟩]) ∧
    fetch_ring (.httpError 304) = (none, [⟨.debug, "Ring-master reports ring unchanged."⟩]) ∧
    (code ≠ 200 → code ≠ 304 →
      fetch_ring (.status code) =
        (some false, [⟨.warning, "Received non 200 status code"⟩])) ∧
    (code ≠ 304 →
      fetch_ring (.httpError code) =
        (some false, [⟨.error, "Error communicating with ring-master"⟩])) ∧
    fetch_ring .urlError = (some false, [⟨.error, "Error communicating with ring-master"⟩]) ∧
    fetch_ring .otherError = (some false, [⟨.error, "Error retrieving or checking on ring"⟩]) := by
  refine ⟨by decide, by decide, ?_, ?_, by decide, by decide⟩
  · intro h200 h304
    rw [fetch_ring, if_neg h304, if_pos h200]
  · intro h304
    rw [fetch_ring, if_neg h304]

theorem claim_C4_witness :
    fetch_ring (.status 203) = (some false, [⟨.warning, "Received non 200 status code"⟩]) ∧
    fetch_ring (.httpError 401) =
      (some false, [⟨.error, "Error communicating with ring-master"⟩]) :=
  ⟨(claim_C4 203).2.2.1 (by decide) (by decide), (claim_C4 401).2.2.2.1 (by decide)⟩

/-- Claim C6: `make_backup` creates the backup directory when absent; a
directory-creation failure with `EEXIST` is swallowed and the backup still
proceeds; any other creation errno is re-raised to the caller. -/
theorem claim_C6 (fs : FS) (f d : String) (t : PTime) (c : List Nat) (e : Nat) :
    (fs.dirs.contains d = false → fs.mkdirFail d = none → fs.readFile f = some c →
      make_backup fs f d t =
        .ok (FS.writeFile ⟨fs.files, d :: fs.dirs, fs.mkdirFail⟩
               (pathjoin d (natRepr t.sec ++ "." ++ basename f)) c,
             pathjoin d (natRepr t.sec ++ "." ++ basename f), get_md5sum c) ∧
      (FS.writeFile ⟨fs.files, d :: fs.dirs, fs.mkdirFail⟩
          (pathjoin d (natRepr t.sec ++ "." ++ basename f)) c).dirs.contains d = true) ∧
    (fs.dirs.contains d = true → fs.readFile f = some c →
      make_backup fs f d t =
        .ok (fs.writeFile (pathjoin d (natRepr t.sec ++ "." ++ basename f)) c,
             pathjoin d (natRepr t.sec ++ "." ++ basename f), get_md5sum c)) ∧
    (fs.dirs.contains d = false → fs.mkdirFail d = some e → e ≠ EEXIST →
      make_backup fs f d t = .error e) := by
  refine ⟨?_, ?_, ?_⟩
  · intro h1 h2 h3
    have hmem : d ∉ fs.dirs := by simpa using h1
    have hmk : fs.mkdir d = .ok ⟨fs.files, d :: fs.dirs, fs.mkdirFail⟩ := by
      simp [FS.mkdir, hmem, h2]
    constructor
    · rw [make_backup, hmk]
      simp [FS.readFile_mk_dirs, h3, FS.readFile_writeFile]
    · simp [FS.writeFile]
  · intro h1 h3
    have hmem : d ∈ fs.dirs := by simpa using h1
    have hmk : fs.mkdir d = .error EEXIST := by
      simp [FS.mkdir, hmem]
    rw [make_backup, hmk]
    simp [h3, FS.readFile_writeFile]
  · intro h1 h2 h3
    have hmem : d ∉ fs.dirs := by simpa using h1
    have hmk : fs.mkdir d = .error e := by
      simp [FS.mkdir, hmem, h2]
    rw [make_backup, hmk]
    simp [h3]

theorem claim_C6_witness :
    (make_backup ⟨[("f", [1])], [], fun _ => none⟩ "f" "b" ⟨5, 0⟩ =
        .ok (FS.writeFile ⟨[("f", [1])], "b" :: [], fun _ => none⟩
               (pathjoin "b" (natRepr 5 ++ "." ++ basename "f")) [1],
             pathjoin "b" (natRepr 5 ++ "." ++ basename "f"), get_md5sum [1]) ∧
      (FS.writeFile ⟨[("f", [1])], "b" :: [], fun _ => none⟩
          (pathjoin "b" (natRepr 5 ++ "." ++ basename "f")) [1]).dirs.contains "b" = true) ∧
    (make_backup ⟨[("f", [1])], ["b"], fun _ => none⟩ "f" "b" ⟨5, 0⟩ =
      .ok (FS.writeFile ⟨[("f", [1])], ["b"], fun _ => none⟩
             (pathjoin "b" (natRepr 5 ++ "." ++ basename "f")) [1],
           pathjoin "b" (natRepr 5 ++ "." ++ basename "f"), get_md5sum [1])) ∧
    (make_backup ⟨[("f", [1])], [], fun _ => some 13⟩ "f" "b" ⟨5, 0⟩ = .error 13) :=
  ⟨(claim_C6 ⟨[("f", [1])], [], fun _ => none⟩ "f" "b" ⟨5, 0⟩ [1] 0).1 rfl rfl rfl,
   (claim_C6 ⟨[("f", [1])], ["b"], fun _ => none⟩ "f" "b" ⟨5, 0⟩ [1] 0).2.1 rfl rfl,
   (claim_C6 ⟨[("f", [1])], [], fun _ => some 13⟩ "f" "b" ⟨5, 0⟩ [1] 13).2.2 rfl rfl
     (by decide)⟩

/-- Claim C7: a successful `make_backup` returns the backup path together
with the md5 digest of the contents of the backup file it just created. -/
theorem claim_C7 (fs : FS) (f d : String) (t : PTime) (fs' : FS) (p dg : String)
    (h : make_backup fs f d t = .ok (fs', p, dg)) :
    ∃ cb, fs'.readFile p = some cb ∧ dg = md5hex cb := by
  obtain ⟨-, cb, hread, hdg⟩ := make_backup_ok fs f d t fs' p dg h
  exact ⟨cb, hread, by rw [hdg]; exact get_md5sum_pos cb 4096 (by norm_num)⟩

theorem claim_C7_witness :
    ∃ cb,
      (FS.writeFile ⟨[("f", [1])], ["b"], fun _ => none⟩
          (pathjoin "b" (natRepr 100 ++ "." ++ basename "f")) [1]).readFile
        (pathjoin "b" (natRepr 100 ++ "." ++ basename "f")) = some cb ∧
      get_md5sum [1] = md5hex cb :=
  claim_C7 ⟨[("f", [1])], ["b"], fun _ => none⟩ "f" "b" ⟨100, 1⟩
    (FS.writeFile ⟨[("f", [1])], ["b"], fun _ => none⟩
      (pathjoin "b" (natRepr 100 ++ "." ++ basename "f")) [1])
    (pathjoin "b" (natRepr 100 ++ "." ++ basename "f")) (get_md5sum [1]) rfl

/-- Claim C2 fails as stated: the backup name keeps only the integral seconds
of the timestamp, so two rapid successive calls within the same wall-clock
second (here at 100 s + 1 ns and 100 s + 0.5 s, with the ring file changed
in between) produce the same backup path and the second copy replaces the
first backup's contents. -/
theorem claim_C2_counterexample :
    (⟨100, 1⟩ : PTime) ≠ ⟨100, 500000000⟩ ∧
    cexPath2 = cexPath1 ∧
    cexFS1.readFile cexPath1 = some [1] ∧
    cexFS2.readFile cexPath1 = some [2] := by
  refine ⟨by decide, by decide, by decide, by decide⟩

/-- Claim C2 (amended): `make_backup` names the backup with the timestamp
truncated to whole seconds plus the original base name; backups whose
timestamps fall in distinct integral seconds never collide, but calls within
the same integral second reuse the name and overwrite the prior backup. -/
theorem claim_C2_amended (fs₁ fs₂ : FS) (filename backup_dir : String)
    (t₁ t₂ : PTime) (fs₁' fs₂' : FS) (p₁ p₂ dg₁ dg₂ : String)
    (h₁ : make_backup fs₁ filename backup_dir t₁ = .ok (fs₁', p₁, dg₁))
    (h₂ : make_backup fs₂ filename backup_dir t₂ = .ok (fs₂', p₂, dg₂)) :
    p₁ = pathjoin backup_dir (natRepr t₁.sec ++ "." ++ basename filename) ∧
    (t₁.sec ≠ t₂.sec → p₁ ≠ p₂) := by
  obtain ⟨hp₁, -⟩ := make_backup_ok fs₁ filename backup_dir t₁ fs₁' p₁ dg₁ h₁
  obtain ⟨hp₂, -⟩ := make_backup_ok fs₂ filename backup_dir t₂ fs₂' p₂ dg₂ h₂
  refine ⟨hp₁, fun hsec hpp => hsec ?_⟩
  rw [hp₁, hp₂] at hpp
  exact backup_path_inj backup_dir (basename filename) t₁.sec t₂.sec hpp

theorem claim_C2_amended_witness :
    pathjoin "b" (natRepr 100 ++ "." ++ basename "f") ≠
      pathjoin "b" (natRepr 101 ++ "." ++ basename "f") :=
  (claim_C2_amended ⟨[("f", [1])], ["b"], fun _ => none⟩ ⟨[("f", [1])], ["b"], fun _ => none⟩
      "f" "b" ⟨100, 1⟩ ⟨101, 0⟩
      (FS.writeFile ⟨[("f", [1])], ["b"], fun _ => none⟩
        (pathjoin "b" (natRepr 100 ++ "." ++ basename "f")) [1])
      (FS.writeFile ⟨[("f", [1])], ["b"], fun _ => none⟩
        (pathjoin "b" (natRepr 101 ++ "." ++ basename "f")) [1])
      (pathjoin "b" (natRepr 100 ++ "." ++ basename "f"))
      (pathjoin "b" (natRepr 101 ++ "." ++ basename "f"))
      (get_md5sum [1]) (get_md5sum [1]) rfl rfl).2 (by decide)

end Srm

